import Mathlib

/-!
Verification of the karamel interpreter core (NaN-boxed value encoding,
bytecode virtual machine, module loader) against its specification.

The definitions below are a shallow embedding of the Rust sources:

* `src/src/types.rs` — `BramaPrimative`, its `PartialEq`, and the
  NaN-boxing pair `VmObject::convert` / `VmObject::deref`.
* `src/src/vm/interpreter.rs` — the `run_vm` dispatch loop.
* `src/karamellib/src/compiler/module.rs` — `load_module` / `find_load_type`.

Machine `u64` words are modelled as `Nat` (all constants fit in 64 bits and
no arithmetic below overflows 64 bits); `f64` numbers appearing inside word
bit patterns are kept as raw 64-bit patterns, and the IEEE-754 semantics of
the bit-level predicates (`is_nan`, `==`) is spelled out on the pattern.
-/

/-! ## Section 1: constants from `types.rs` -/

def TAG_NULL : Nat := 0
def TAG_FALSE : Nat := 1
def TAG_TRUE : Nat := 2

/-- Constant `QNAN: u64 = 0x7ffc_0000_0000_0000`. -/
def QNAN : Nat := 0x7ffc000000000000

/-- Constant `POINTER_FLAG: u64 = 0x8000_0000_0000_0000`. -/
def POINTER_FLAG : Nat := 0x8000000000000000

/-- Constant `POINTER_MASK: u64 = 0x0000_FFFF_FFFF_FFFF`. -/
def POINTER_MASK : Nat := 0x0000FFFFFFFFFFFF

def FALSE_FLAG : Nat := QNAN ||| TAG_FALSE

def TRUE_FLAG : Nat := QNAN ||| TAG_TRUE

def EMPTY_FLAG : Nat := QNAN ||| TAG_NULL

/-! ## Section 2: the primitive domain of `types.rs`

`BramaPrimative` in `types.rs` has variants `Empty`, `Number(f64)`,
`Bool(bool)`, `List(Vec<Box<BramaAstType>>)`, `Atom(u64)`, `Text(Rc<String>)`.
A `Number` is carried here as its 64-bit IEEE-754 pattern (`f64::to_bits`),
which is what `convert` stores in the word.  `List` elements are modelled as
primitives (the value domain of spec section 3.1); the derived structural
equality of the element type bottoms out in the same primitive equality
either way. -/

inductive BramaPrimative where
  | empty : BramaPrimative
  | number (bits : Nat) : BramaPrimative
  | bool (b : Bool) : BramaPrimative
  | list (items : List BramaPrimative) : BramaPrimative
  | atom (h : Nat) : BramaPrimative
  | text (s : String) : BramaPrimative

/-- Predicate `f64::is_nan` on a 64-bit pattern: exponent bits all set, mantissa
nonzero. -/
def bitsIsNaN (b : Nat) : Bool :=
  decide ((b / 2 ^ 52) % 2 ^ 11 = 2047 ∧ b % 2 ^ 52 ≠ 0)

/-- IEEE-754 `==` on two 64-bit patterns: false when either is NaN,
`+0 == -0`, and otherwise two distinct non-NaN patterns denote distinct
values, so equality is pattern equality. -/
def bitsEq (n m : Nat) : Bool :=
  if bitsIsNaN n || bitsIsNaN m then false
  else (n % 2 ^ 63 == 0 && m % 2 ^ 63 == 0) || n == m

/- `impl PartialEq for BramaPrimative` (`types.rs` lines 224-236): same-kind
structural comparison, `Number` with the NaN special case, catch-all `false`.
`primEqList` is the derived `Vec` equality on element lists. -/
mutual

def primEq : BramaPrimative → BramaPrimative → Bool
  | .bool lvalue, .bool rvalue => lvalue == rvalue
  | .atom lvalue, .atom rvalue => lvalue == rvalue
  | .list lvalue, .list rvalue => primEqList lvalue rvalue
  | .empty, .empty => true
  | .number n, .number m => if bitsIsNaN n && bitsIsNaN m then true else bitsEq n m
  | .text lvalue, .text rvalue => lvalue == rvalue
  | _, _ => false

def primEqList : List BramaPrimative → List BramaPrimative → Bool
  | [], [] => true
  | p :: ps, q :: qs => primEq p q && primEqList ps qs
  | _, _ => false

end

/-- Constructor tag of a primitive, to state cross-kind facts. -/
def primKind : BramaPrimative → Nat
  | .empty => 0
  | .number _ => 1
  | .bool _ => 2
  | .list _ => 3
  | .atom _ => 4
  | .text _ => 5

/-- The kinds that `VmObject::convert` boxes behind a pointer (the `_` arm). -/
def isHeapKind : BramaPrimative → Bool
  | .list _ => true
  | .atom _ => true
  | .text _ => true
  | _ => false

/-! ## Section 3: NaN boxing (`VmObject::convert` / `VmObject::deref`)

The Rust `convert` moves an `Rc` into a raw pointer; `deref` reads it back.
The heap is modelled as a total map from addresses to primitives, and
`convert` takes the address at which the primitive lives. -/

/-- Function `VmObject::convert` (`types.rs` lines 239-248). -/
def convert (p : BramaPrimative) (addr : Nat) : Nat :=
  match p with
  | .empty => QNAN ||| EMPTY_FLAG
  | .number bits => bits
  | .bool b => QNAN ||| (if b then TRUE_FLAG else FALSE_FLAG)
  | _ => QNAN ||| POINTER_FLAG ||| (POINTER_MASK &&& addr)

/-- Function `VmObject::deref` (`types.rs` lines 250-263). -/
def deref (heap : Nat → BramaPrimative) (w : Nat) : BramaPrimative :=
  if w &&& QNAN ≠ QNAN then .number w
  else if w = QNAN ||| EMPTY_FLAG then .empty
  else if w = QNAN ||| FALSE_FLAG then .bool false
  else if w = QNAN ||| TRUE_FLAG then .bool true
  else if w &&& POINTER_FLAG = POINTER_FLAG then heap (w &&& POINTER_MASK)
  else .empty

/-! ## Section 4: IEEE-754 binary64 numbers for the VM

`run_vm` computes on `f64` values.  A double is modelled exactly: NaN, a
signed infinity, or a signed finite magnitude carried as an exact rational
(every finite double is a dyadic rational).  `+0` and `-0` are `fin false 0`
and `fin true 0`.  The arithmetic below follows IEEE-754 round-to-nearest,
ties-to-even, which is what Rust's `f64` operators perform. -/

inductive F64V where
  | nan : F64V
  | inf (neg : Bool) : F64V
  | fin (neg : Bool) (mag : ℚ) : F64V
deriving DecidableEq

def F64V.isNaN : F64V → Bool
  | .nan => true
  | _ => false

/-- The signed rational value of a finite double (0 for the others). -/
def F64V.signedVal : F64V → ℚ
  | .fin n m => if n then -m else m
  | _ => 0

/-- IEEE-754 `<` (false whenever an operand is NaN). -/
def flt : F64V → F64V → Bool
  | .nan, _ => false
  | _, .nan => false
  | .inf true, .inf true => false
  | .inf true, _ => true
  | _, .inf true => false
  | .inf false, _ => false
  | _, .inf false => true
  | .fin n₁ m₁, .fin n₂ m₂ =>
    decide ((if n₁ then -m₁ else m₁) < (if n₂ then -m₂ else m₂))

/-- IEEE-754 `==` (false whenever an operand is NaN, `+0 == -0`). -/
def feq : F64V → F64V → Bool
  | .nan, _ => false
  | _, .nan => false
  | .inf a, .inf b => a == b
  | .fin n₁ m₁, .fin n₂ m₂ =>
    decide ((if n₁ then -m₁ else m₁) = (if n₂ then -m₂ else m₂))
  | _, _ => false

def fgt (a b : F64V) : Bool := flt b a

def fge (a b : F64V) : Bool := feq a b || fgt a b

def fle (a b : F64V) : Bool := feq a b || flt a b

/-- Power `2 ^ g` as an exact rational, for an integer exponent. -/
def powQ (g : Int) : ℚ :=
  if 0 ≤ g then ((2 ^ g.toNat : Nat) : ℚ) else (((2 ^ (-g).toNat : Nat) : ℚ))⁻¹

/-- Round a nonnegative rational to the nearest integer, ties to even. -/
def roundMantissa (r : ℚ) : Int :=
  let k := ⌊r⌋
  let frac := r - (k : ℚ)
  if frac > 1 / 2 then k + 1
  else if frac < 1 / 2 then k
  else if k % 2 = 0 then k else k + 1

/-- Round a positive rational to the binary64 magnitude grid
(round-to-nearest, ties-to-even); `none` is overflow to infinity. -/
def roundPosQ (q : ℚ) : Option ℚ :=
  let n : Int := Int.log 2 q
  let g : Int := max (n - 52) (-1074)
  let k : Int := roundMantissa (q * powQ (-g))
  let m : ℚ := (k : ℚ) * powQ g
  if powQ 1024 ≤ m then none else some m

/-- Build a finite double of the given sign from an exact magnitude,
rounding to the representable grid and overflowing to infinity. -/
def mkFin (neg : Bool) (q : ℚ) : F64V :=
  if q = 0 then .fin neg 0
  else
    match roundPosQ q with
    | none => .inf neg
    | some m => .fin neg m

def F64V.fneg : F64V → F64V
  | .nan => .nan
  | .inf s => .inf (!s)
  | .fin s m => .fin (!s) m

/-- IEEE-754 addition. -/
def fadd : F64V → F64V → F64V
  | .nan, _ => .nan
  | _, .nan => .nan
  | .inf a, .inf b => if a == b then .inf a else .nan
  | .inf a, .fin _ _ => .inf a
  | .fin _ _, .inf b => .inf b
  | .fin n₁ m₁, .fin n₂ m₂ =>
    if m₁ = 0 ∧ m₂ = 0 then .fin (n₁ && n₂) 0
    else
      let s := (if n₁ then -m₁ else m₁) + (if n₂ then -m₂ else m₂)
      if s = 0 then .fin false 0 else mkFin (decide (s < 0)) |s|

/-- IEEE-754 subtraction (`x - y = x + (-y)` exactly). -/
def fsub (a b : F64V) : F64V := fadd a b.fneg

/-- IEEE-754 multiplication. -/
def fmul : F64V → F64V → F64V
  | .nan, _ => .nan
  | _, .nan => .nan
  | .inf a, .inf b => .inf (a != b)
  | .inf a, .fin b m => if m = 0 then .nan else .inf (a != b)
  | .fin a m, .inf b => if m = 0 then .nan else .inf (a != b)
  | .fin a m₁, .fin b m₂ =>
    if m₁ * m₂ = 0 then .fin (a != b) 0 else mkFin (a != b) (m₁ * m₂)

/-- IEEE-754 division: `x / ±0` is `±∞` for nonzero finite `x`, `0 / 0` and
`∞ / ∞` are NaN, `x / ∞` is a signed zero. -/
def fdiv : F64V → F64V → F64V
  | .nan, _ => .nan
  | _, .nan => .nan
  | .inf _, .inf _ => .nan
  | .inf a, .fin b _ => .inf (a != b)
  | .fin a _, .inf b => .fin (a != b) 0
  | .fin a m₁, .fin b m₂ =>
    if m₂ = 0 then (if m₁ = 0 then .nan else .inf (a != b))
    else if m₁ = 0 then .fin (a != b) 0
    else mkFin (a != b) (m₁ / m₂)

/-- The float literal `0.0`. -/
def fzero : F64V := .fin false 0

/-- The float literal `1.0`. -/
def fone : F64V := .fin false 1

/-- Rust's saturating `f64 as usize` cast (64-bit `usize`): NaN to 0,
negatives to 0, values at or above `2^64` to `2^64 - 1`, positive finite
values truncated toward zero. -/
def floatToUsize : F64V → Nat
  | .nan => 0
  | .inf true => 0
  | .inf false => 2 ^ 64 - 1
  | .fin true _ => 0
  | .fin false m => min (⌊m⌋.toNat) (2 ^ 64 - 1)

/-! ## Section 5: the virtual machine (`vm/interpreter.rs`)

The VM-era primitive domain (the `BramaPrimative` the interpreter matches
on) additionally has `Dict`, `FuncNativeCall` and `Class` variants; its
definition is outside `src`, but every variant the dispatch loop touches is
visible in `interpreter.rs`.  Numbers are the `F64V` doubles above.  A
native function value is an index into a table carried by the VM state (the
Rust value holds the function pointer itself). -/

inductive VmVal where
  | empty : VmVal
  | number (n : F64V) : VmVal
  | bool (b : Bool) : VmVal
  | text (s : String) : VmVal
  | list (items : List VmVal) : VmVal
  | dict (entries : List (String × VmVal)) : VmVal
  | atom (h : Nat) : VmVal
  | funcNative (idx : Nat) : VmVal
  | cls (idx : Nat) : VmVal

def VmVal.isNumber : VmVal → Bool
  | .number _ => true
  | _ => false

def VmVal.isFuncNative : VmVal → Bool
  | .funcNative _ => true
  | _ => false

/-- Signature of a host native function: it receives a read-only view of
the operand stack, the current stack pointer and the argument count, and
returns a value or an error (`interpreter.rs` lines 261-281). -/
def NativeFn : Type := (Nat → VmVal) → Nat → Nat → Except String VmVal

/- Modelled from the spec: `BramaPrimative::eq` of the VM era is outside
`src`; `types.rs` provides the in-`src` arms (Bool, Atom, List, Empty,
Number with NaN == NaN, Text, catch-all false) and they are used verbatim;
the extra kinds fall into the catch-all. -/
mutual

def vmEq : VmVal → VmVal → Bool
  | .bool lvalue, .bool rvalue => lvalue == rvalue
  | .atom lvalue, .atom rvalue => lvalue == rvalue
  | .list lvalue, .list rvalue => vmEqList lvalue rvalue
  | .empty, .empty => true
  | .number n, .number m => if n.isNaN && m.isNaN then true else feq n m
  | .text lvalue, .text rvalue => lvalue == rvalue
  | _, _ => false

def vmEqList : List VmVal → List VmVal → Bool
  | [], [] => true
  | p :: ps, q :: qs => vmEq p q && vmEqList ps qs
  | _, _ => false

end

/-- Modelled from the spec: `BramaPrimative::is_true` (used by `Not`, `And`,
`Or`) is defined outside `src`; spec section 4.1 gives the truthiness table:
Empty false, Bool itself, Number positive, Text non-empty, Atom true,
List/Dict/Func/Class true. -/
def isTrue : VmVal → Bool
  | .empty => false
  | .bool b => b
  | .number n => fgt n fzero
  | .text s => decide (0 < s.utf8ByteSize)
  | .atom _ => true
  | _ => true

/-- Modelled from the spec: `BramaPrimative::get_text` (used by `InitDict`
for keys) is outside `src`; it returns the text of a Text and the empty
string otherwise. -/
def getText : VmVal → String
  | .text s => s
  | _ => ""

/-- The truthiness match written inline in the `Compare` arm
(`interpreter.rs` lines 329-336); note its catch-all is `false`. -/
def compareStatus : VmVal → Bool
  | .empty => false
  | .atom _ => true
  | .bool lvalue => lvalue
  | .number lvalue => fgt lvalue fzero
  | .text lvalue => decide (0 < lvalue.utf8ByteSize)
  | _ => false

/-- Modelled from the spec: the `VmOpCode` enum lives in the compiler module
(outside `src`); `interpreter.rs` transmutes each byte to it, so bytes map
to opcodes by declaration order.  The claims are independent of the
concrete numbering; this file fixes one. -/
inductive VmOpCode where
  | None | Addition | Subraction | Multiply | Division
  | And | Or | Equal | NotEqual
  | GreaterThan | LessThan | GreaterEqualThan | LessEqualThan
  | Not | Dublicate | Increment | Decrement
  | NativeCall | InitList | InitDict | GetItem
  | Compare | Jump | Load | Store | CopyToStore | FastStore
deriving DecidableEq

def decodeOp (b : Nat) : VmOpCode :=
  match b with
  | 0 => .None | 1 => .Addition | 2 => .Subraction | 3 => .Multiply
  | 4 => .Division | 5 => .And | 6 => .Or | 7 => .Equal | 8 => .NotEqual
  | 9 => .GreaterThan | 10 => .LessThan | 11 => .GreaterEqualThan
  | 12 => .LessEqualThan | 13 => .Not | 14 => .Dublicate | 15 => .Increment
  | 16 => .Decrement | 17 => .NativeCall | 18 => .InitList | 19 => .InitDict
  | 20 => .GetItem | 21 => .Compare | 22 => .Jump | 23 => .Load
  | 24 => .Store | 25 => .CopyToStore | 26 => .FastStore
  | _ => .None

/-- VM state for `run_vm`: the flat opcode byte stream, the instruction
pointer `index`, the active storage's memory and operand stack (total maps,
as the Rust arrays are preallocated), the stack pointer `mem_index`, and
the table interpreting native-function values. -/
structure VmState where
  opcodes : List Nat
  index : Nat
  memory : Nat → VmVal
  stack : Nat → VmVal
  memIndex : Nat
  natives : Nat → NativeFn

/-- Byte at position `i` of the opcode stream. -/
def byteAt (st : VmState) (i : Nat) : Nat := st.opcodes.getD i 0

/-- Pointwise array update. -/
def setFn (f : Nat → VmVal) (i : Nat) (v : VmVal) : Nat → VmVal :=
  fun j => if j = i then v else f j

/-- The `Addition` arm's value computation (`interpreter.rs` 107-117). -/
def additionResult (left right : VmVal) : VmVal :=
  match left, right with
  | .number lvalue, .number rvalue => .number (fadd lvalue rvalue)
  | .text lvalue, .text rvalue => .text (lvalue ++ rvalue)
  | _, _ => .empty

/-- The `Subraction` arm's value computation (`interpreter.rs` 96-105). -/
def subractionResult (left right : VmVal) : VmVal :=
  match left, right with
  | .number lvalue, .number rvalue => .number (fsub lvalue rvalue)
  | _, _ => .empty

/-- Rust `String::repeat`. -/
def repeatText (s : String) (n : Nat) : String :=
  String.join (List.replicate n s)

/-- The `Multiply` arm's value computation (`interpreter.rs` 170-179):
numbers multiply, `Text * Number` repeats the text through the saturating
`as usize` cast, anything else is Empty. -/
def multiplyResult (left right : VmVal) : VmVal :=
  match left, right with
  | .number lvalue, .number rvalue => .number (fmul lvalue rvalue)
  | .text lvalue, .number rvalue => .text (repeatText lvalue (floatToUsize rvalue))
  | _, _ => .empty

/-- The `Division` arm's value computation (`interpreter.rs` 181-198): the
quotient is computed for two Numbers and `NAN` substituted otherwise; a NaN
result becomes Empty. -/
def divisionResult (left right : VmVal) : VmVal :=
  let calculation : F64V :=
    match left, right with
    | .number lvalue, .number rvalue => fdiv lvalue rvalue
    | _, _ => F64V.nan
  if calculation.isNaN then .empty else .number calculation

/-- Comparison arms (`GreaterThan` etc.): Numbers compare, anything else is
Empty. -/
def numCompareResult (cmp : F64V → F64V → Bool) (left right : VmVal) : VmVal :=
  match left, right with
  | .number lvalue, .number rvalue => .bool (cmp lvalue rvalue)
  | _, _ => .empty

/-- Rust `HashMap::insert` on the modelled dict. -/
def dictInsert (entries : List (String × VmVal)) (k : String) (v : VmVal) :
    List (String × VmVal) :=
  (k, v) :: entries.filter (fun p => p.1 != k)

/-- The `InitDict` pop loop: `total` iterations of value-then-key pops. -/
def collectDict (stack : Nat → VmVal) (mi : Nat) :
    Nat → List (String × VmVal) → List (String × VmVal)
  | 0, acc => acc
  | k + 1, acc =>
    let value := stack (mi - 1)
    let key := stack (mi - 2)
    collectDict stack (mi - 2) k (dictInsert acc (getText key) value)

/-- One arm of the dispatch `match` of `run_vm` (`interpreter.rs` 95-385),
including the common trailing `index += 1`; `Err` returns skip it exactly
as the Rust `return Err(..)` does. -/
def execOp (op : VmOpCode) (st : VmState) : Except String VmState :=
  match op with
  | .Subraction =>
    let right := st.stack (st.memIndex - 1)
    let left := st.stack (st.memIndex - 2)
    .ok { st with stack := setFn st.stack (st.memIndex - 2) (subractionResult left right),
                  memIndex := st.memIndex - 1, index := st.index + 1 }
  | .Addition =>
    let right := st.stack (st.memIndex - 1)
    let left := st.stack (st.memIndex - 2)
    .ok { st with stack := setFn st.stack (st.memIndex - 2) (additionResult left right),
                  memIndex := st.memIndex - 1, index := st.index + 1 }
  | .Load =>
    let tmp := byteAt st (st.index + 1)
    .ok { st with stack := setFn st.stack st.memIndex (st.memory tmp),
                  memIndex := st.memIndex + 1, index := st.index + 2 }
  | .Store =>
    let tmp := byteAt st (st.index + 1)
    .ok { st with memory := setFn st.memory tmp (st.stack (st.memIndex - 1)),
                  memIndex := st.memIndex - 1, index := st.index + 2 }
  | .CopyToStore =>
    let tmp := byteAt st (st.index + 1)
    .ok { st with memory := setFn st.memory tmp (st.stack (st.memIndex - 1)),
                  index := st.index + 2 }
  | .FastStore =>
    let destination := byteAt st (st.index + 1)
    let source := byteAt st (st.index + 2)
    .ok { st with memory := setFn st.memory destination (st.memory source),
                  index := st.index + 3 }
  | .Not =>
    .ok { st with stack := setFn st.stack (st.memIndex - 1)
                    (.bool (!(isTrue (st.stack (st.memIndex - 1))))),
                  index := st.index + 1 }
  | .Dublicate =>
    .ok { st with stack := setFn st.stack st.memIndex (st.stack (st.memIndex - 1)),
                  memIndex := st.memIndex + 1, index := st.index + 1 }
  | .And =>
    let left := st.stack (st.memIndex - 1)
    let right := st.stack (st.memIndex - 2)
    .ok { st with stack := setFn st.stack (st.memIndex - 2)
                    (.bool (isTrue left && isTrue right)),
                  memIndex := st.memIndex - 1, index := st.index + 1 }
  | .Or =>
    let left := st.stack (st.memIndex - 1)
    let right := st.stack (st.memIndex - 2)
    .ok { st with stack := setFn st.stack (st.memIndex - 2)
                    (.bool (isTrue left || isTrue right)),
                  memIndex := st.memIndex - 1, index := st.index + 1 }
  | .Multiply =>
    let right := st.stack (st.memIndex - 1)
    let left := st.stack (st.memIndex - 2)
    .ok { st with stack := setFn st.stack (st.memIndex - 2) (multiplyResult left right),
                  memIndex := st.memIndex - 1, index := st.index + 1 }
  | .Division =>
    let right := st.stack (st.memIndex - 1)
    let left := st.stack (st.memIndex - 2)
    .ok { st with stack := setFn st.stack (st.memIndex - 2) (divisionResult left right),
                  memIndex := st.memIndex - 1, index := st.index + 1 }
  | .Equal =>
    let right := st.stack (st.memIndex - 1)
    let left := st.stack (st.memIndex - 2)
    .ok { st with stack := setFn st.stack (st.memIndex - 2) (.bool (vmEq left right)),
                  memIndex := st.memIndex - 1, index := st.index + 1 }
  | .NotEqual =>
    let right := st.stack (st.memIndex - 1)
    let left := st.stack (st.memIndex - 2)
    .ok { st with stack := setFn st.stack (st.memIndex - 2) (.bool (!(vmEq left right))),
                  memIndex := st.memIndex - 1, index := st.index + 1 }
  | .GreaterThan =>
    let right := st.stack (st.memIndex - 1)
    let left := st.stack (st.memIndex - 2)
    .ok { st with stack := setFn st.stack (st.memIndex - 2) (numCompareResult fgt left right),
                  memIndex := st.memIndex - 1, index := st.index + 1 }
  | .GreaterEqualThan =>
    let right := st.stack (st.memIndex - 1)
    let left := st.stack (st.memIndex - 2)
    .ok { st with stack := setFn st.stack (st.memIndex - 2) (numCompareResult fge left right),
                  memIndex := st.memIndex - 1, index := st.index + 1 }
  | .LessThan =>
    let right := st.stack (st.memIndex - 1)
    let left := st.stack (st.memIndex - 2)
    .ok { st with stack := setFn st.stack (st.memIndex - 2) (numCompareResult flt left right),
                  memIndex := st.memIndex - 1, index := st.index + 1 }
  | .LessEqualThan =>
    let right := st.stack (st.memIndex - 1)
    let left := st.stack (st.memIndex - 2)
    .ok { st with stack := setFn st.stack (st.memIndex - 2) (numCompareResult fle left right),
                  memIndex := st.memIndex - 1, index := st.index + 1 }
  | .NativeCall =>
    let funcLocation := byteAt st (st.index + 1)
    match st.memory funcLocation with
    | .funcNative f =>
      let totalArgs := byteAt st (st.index + 2)
      match st.natives f st.stack st.memIndex totalArgs with
      | .ok result =>
        .ok { st with stack := setFn st.stack (st.memIndex - totalArgs) result,
                      memIndex := st.memIndex - totalArgs + 1, index := st.index + 3 }
      | .error e => .error e
    | _ => .ok { st with index := st.index + 1 }
  | .Increment =>
    let v := match st.stack (st.memIndex - 1) with
      | .number value => VmVal.number (fadd value fone)
      | _ => VmVal.empty
    .ok { st with stack := setFn st.stack (st.memIndex - 1) v, index := st.index + 1 }
  | .Decrement =>
    let v := match st.stack (st.memIndex - 1) with
      | .number value => VmVal.number (fsub value fone)
      | _ => VmVal.empty
    .ok { st with stack := setFn st.stack (st.memIndex - 1) v, index := st.index + 1 }
  | .InitList =>
    let totalItem := byteAt st (st.index + 1)
    let items := (List.range totalItem).map (fun k => st.stack (st.memIndex - 1 - k))
    .ok { st with stack := setFn st.stack (st.memIndex - totalItem) (.list items),
                  memIndex := st.memIndex - totalItem + 1, index := st.index + 2 }
  | .InitDict =>
    let totalItem := byteAt st (st.index + 1)
    let entries := collectDict st.stack st.memIndex totalItem []
    .ok { st with stack := setFn st.stack (st.memIndex - 2 * totalItem) (.dict entries),
                  memIndex := st.memIndex - 2 * totalItem + 1, index := st.index + 2 }
  | .Compare =>
    let condition := st.stack (st.memIndex - 1)
    if compareStatus condition then
      .ok { st with memIndex := st.memIndex - 1, index := st.index + 3 }
    else
      let location := byteAt st (st.index + 2) * 256 + byteAt st (st.index + 1)
      .ok { st with memIndex := st.memIndex - 1, index := st.index + location + 1 }
  | .Jump =>
    let location := byteAt st (st.index + 2) * 256 + byteAt st (st.index + 1)
    .ok { st with index := st.index + location + 1 }
  | .GetItem =>
    let indexer := st.stack (st.memIndex - 1)
    let object := st.stack (st.memIndex - 2)
    match object with
    | .list items =>
      match indexer with
      | .number n =>
        let element := (items.get? (floatToUsize n)).getD .empty
        .ok { st with stack := setFn st.stack (st.memIndex - 2) element,
                      memIndex := st.memIndex - 1, index := st.index + 1 }
      | _ => .error "Indexer must be number"
    | .dict entries =>
      match indexer with
      | .text s =>
        let element := ((entries.lookup s).getD .empty)
        .ok { st with stack := setFn st.stack (st.memIndex - 2) element,
                      memIndex := st.memIndex - 1, index := st.index + 1 }
      | _ => .error "Indexer must be string"
    | _ =>
      .ok { st with stack := setFn st.stack (st.memIndex - 2) .empty,
                    memIndex := st.memIndex - 1, index := st.index + 1 }
  | .None => .ok { st with index := st.index + 1 }

/-- One iteration of the `while` loop of `run_vm`: decode the byte at the
instruction pointer and dispatch. -/
def vmStep (st : VmState) : Except String VmState :=
  execOp (decodeOp (byteAt st st.index)) st

/-- Outcome of running the loop under a fuel bound. -/
inductive VmOut where
  | halted (st : VmState) : VmOut
  | failed (msg : String) : VmOut
  | fuelOut : VmOut

/-- The `while opcode_size > index` loop of `run_vm`, fuel-bounded. -/
def vmRun : Nat → VmState → VmOut
  | 0, _ => .fuelOut
  | n + 1, st =>
    if st.index < st.opcodes.length then
      match vmStep st with
      | .ok st2 => vmRun n st2
      | .error e => .failed e
    else .halted st

/-- Read one memory slot of the final state of a completed run. -/
def runMemorySlot (fuel : Nat) (st : VmState) (slot : Nat) : Option VmVal :=
  match vmRun fuel st with
  | .halted s => some (s.memory slot)
  | _ => none

/-- State `st2` is reachable from `st` by zero or more successful VM steps. -/
inductive Reaches : VmState → VmState → Prop
  | refl (s : VmState) : Reaches s s
  | head {s s2 s3 : VmState} : vmStep s = .ok s2 → Reaches s2 s3 → Reaches s s3

/-! ## Section 6: module loading (`karamellib/src/compiler/module.rs`)

`find_load_type` walks the AST; on a `Load(path)` whose path is not yet in
the context's module registry it calls `load_module`, which reads and
parses the module source, pushes a storage, and recursively runs
`find_load_type` on the module's AST; only after `load_module` returns is
the module added to the registry (`find_load_type`, lines 138-156).

The filesystem-plus-parser collaborator is a map from module paths to ASTs
(`none` is a read failure).  `has_module` / `add_module` live in the
context module outside `src`; modelled from the spec they are membership
and insertion in the registry of module paths (spec sections 3.4 and 4.3).
The mutual recursion of `load_module` and `find_load_type` is driven
through a job type, with one unit of fuel per recursive call; `none`
means the fuel ran out, i.e. the recursion is still descending. -/

inductive MAst where
  | load (params : List String) : MAst
  | block (blocks : List MAst) : MAst
  | other : MAst

structure MCtx where
  registry : List (List String)
  storages : Nat

inductive MJob where
  | loadM (params : List String) : MJob
  | findL (ast : MAst) : MJob
  | findList (blocks : List MAst) : MJob

/-- Functions `load_module` / `find_load_type` as a fuel-bounded evaluator. -/
def moduleRun (srcs : List String → Option MAst) :
    Nat → MJob → MCtx → Option (Except String MCtx)
  | 0, _, _ => none
  | fuel + 1, .loadM params, ctx =>
    match srcs params with
    | none => some (.error "Dosya okuma hatasi oldu")
    | some ast =>
      moduleRun srcs fuel (.findL ast) { ctx with storages := ctx.storages + 1 }
  | fuel + 1, .findL ast, ctx =>
    match ast with
    | .load moduleName =>
      if moduleName ∈ ctx.registry then some (.ok ctx)
      else
        match moduleRun srcs fuel (.loadM moduleName) ctx with
        | none => none
        | some (.error e) => some (.error e)
        | some (.ok ctx2) =>
          some (.ok { ctx2 with registry := moduleName :: ctx2.registry })
    | .block blocks => moduleRun srcs fuel (.findList blocks) ctx
    | .other => some (.ok ctx)
  | fuel + 1, .findList blocks, ctx =>
    match blocks with
    | [] => some (.ok ctx)
    | b :: rest =>
      match moduleRun srcs fuel (.findL b) ctx with
      | none => none
      | some (.error e) => some (.error e)
      | some (.ok ctx2) => moduleRun srcs fuel (.findList rest) ctx2

/-- The cyclic two-module program of scenario S6: `m1` imports `m2` and
`m2` imports `m1`. -/
def cycSrcs : List String → Option MAst :=
  fun p =>
    if p = ["m1"] then some (.block [.load ["m2"]])
    else if p = ["m2"] then some (.block [.load ["m1"]])
    else none

/-- The initial compilation context: empty module registry. -/
def mctx0 : MCtx := { registry := [], storages := 1 }

/-! ## Section 7: concrete inputs used by witnesses and counterexamples -/

/-- An all-Empty heap, for concrete evaluations. -/
def heap0 : Nat → BramaPrimative := fun _ => .empty

/-- A native table whose every entry succeeds with Empty. -/
def nativeOkEmpty : NativeFn := fun _ _ _ => .ok .empty

/-- The compiled program of scenario S3, `a = 1 / 0`:
`Load 0; Load 1; Division; Store 2` over memory `[1.0, 0.0, a]`. -/
def divState : VmState :=
  { opcodes := [23, 0, 23, 1, 4, 24, 2]
    index := 0
    memory := fun i => if i = 0 then .number fone
              else if i = 1 then .number fzero else .empty
    stack := fun _ => .empty
    memIndex := 0
    natives := fun _ => nativeOkEmpty }

/-- The compiled program of scenario S2, `a = "ha" * 3`:
`Load 0; Load 1; Multiply; Store 2` over memory `["ha", 3.0, a]`. -/
def s2State : VmState :=
  { opcodes := [23, 0, 23, 1, 3, 24, 2]
    index := 0
    memory := fun i => if i = 0 then .text "ha"
              else if i = 1 then .number (.fin false 3) else .empty
    stack := fun _ => .empty
    memIndex := 0
    natives := fun _ => nativeOkEmpty }

/-- A one-instruction program whose `GetItem` indexes a List with a Text
indexer; its native table never fails. -/
def stC3err : VmState :=
  { opcodes := [20]
    index := 0
    memory := fun _ => .empty
    stack := fun i => if i = 0 then .list [] else .text "a"
    memIndex := 2
    natives := fun _ => nativeOkEmpty }

/-- A `Jump` with little-endian offset bytes `5, 1` (offset 261). -/
def jmpState : VmState :=
  { opcodes := [22, 5, 1]
    index := 0
    memory := fun _ => .empty
    stack := fun _ => .empty
    memIndex := 0
    natives := fun _ => nativeOkEmpty }

/-- A `Compare` on a popped false Bool, with offset bytes `7, 0`. -/
def cmpState : VmState :=
  { opcodes := [21, 7, 0]
    index := 0
    memory := fun _ => .empty
    stack := fun _ => .bool false
    memIndex := 1
    natives := fun _ => nativeOkEmpty }

/-- A `NativeCall` whose function slot holds Empty instead of a
`FuncNativeCall`. -/
def ncState : VmState :=
  { opcodes := [17, 0, 9]
    index := 0
    memory := fun _ => .empty
    stack := fun _ => .empty
    memIndex := 0
    natives := fun _ => nativeOkEmpty }

/-! ## Section 8: helper lemmas -/

theorem lor_lor_land_left (x y z : Nat) : ((x ||| y) ||| z) &&& x = x := by
  apply Nat.eq_of_testBit_eq; intro i
  simp only [Nat.testBit_or, Nat.testBit_and]
  cases x.testBit i <;> cases y.testBit i <;> cases z.testBit i <;> rfl

theorem lor_lor_land_mid (x y z : Nat) : ((x ||| y) ||| z) &&& y = y := by
  apply Nat.eq_of_testBit_eq; intro i
  simp only [Nat.testBit_or, Nat.testBit_and]
  cases x.testBit i <;> cases y.testBit i <;> cases z.testBit i <;> rfl

mutual

theorem primEq_refl : ∀ p : BramaPrimative, primEq p p = true
  | .empty => rfl
  | .number n => by
    cases h : bitsIsNaN n with
    | true => simp [primEq, h]
    | false => simp [primEq, h, bitsEq]
  | .bool b => by simp [primEq]
  | .atom a => by simp [primEq]
  | .text s => by simp [primEq]
  | .list l => by simpa [primEq] using primEqList_refl l

theorem primEqList_refl : ∀ l : List BramaPrimative, primEqList l l = true
  | [] => rfl
  | p :: ps => by simp [primEqList, primEq_refl p, primEqList_refl ps]

end

theorem lor_masked_land (x m a : Nat) (hx : x &&& m = 0) :
    (x ||| (m &&& a)) &&& m = m &&& a := by
  apply Nat.eq_of_testBit_eq; intro i
  have hxi := congrArg (fun t => t.testBit i) hx
  simp only [Nat.testBit_and, Nat.zero_testBit] at hxi
  simp only [Nat.testBit_or, Nat.testBit_and]
  cases hb : x.testBit i <;> cases hm : m.testBit i <;> cases a.testBit i <;>
    simp_all

/-- Claim C1 (amended): decoding the word produced by encoding a primitive
`p` yields a primitive value-equal to `p`, provided that a Number's bit
pattern does not have the full QNAN mask set (NaN patterns with the top two
mantissa bits set collide with the tag space; the standard NaN
`0x7ff8000000000000` is fine and is covered), and that for pointer-boxed
kinds the heap maps the 48-bit address stored in the word back to `p`. -/
theorem claim1_roundTrip (p : BramaPrimative) (heap : Nat → BramaPrimative)
    (addr : Nat)
    (hnum : ∀ b, p = .number b → b &&& QNAN ≠ QNAN)
    (hheap : isHeapKind p = true → heap (POINTER_MASK &&& addr) = p) :
    primEq (deref heap (convert p addr)) p = true := by
  have hmask : (QNAN ||| POINTER_FLAG) &&& POINTER_MASK = 0 := by decide
  have haddr := lor_masked_land (QNAN ||| POINTER_FLAG) POINTER_MASK addr hmask
  have hq := lor_lor_land_left QNAN POINTER_FLAG (POINTER_MASK &&& addr)
  have hp := lor_lor_land_mid QNAN POINTER_FLAG (POINTER_MASK &&& addr)
  have hptr0 : (QNAN ||| EMPTY_FLAG) &&& POINTER_FLAG = 0 := by decide
  have hptr1 : (QNAN ||| FALSE_FLAG) &&& POINTER_FLAG = 0 := by decide
  have hptr2 : (QNAN ||| TRUE_FLAG) &&& POINTER_FLAG = 0 := by decide
  have hpf : POINTER_FLAG ≠ 0 := by decide
  have hptrBranch : ∀ hp2 : isHeapKind p = true,
      primEq (deref heap (QNAN ||| POINTER_FLAG ||| (POINTER_MASK &&& addr))) p
        = true := by
    intro hp2
    have h0 : QNAN ||| POINTER_FLAG ||| (POINTER_MASK &&& addr) ≠ QNAN ||| EMPTY_FLAG := by
      intro h; rw [h] at hp; rw [hptr0] at hp; exact hpf hp.symm
    have h1 : QNAN ||| POINTER_FLAG ||| (POINTER_MASK &&& addr) ≠ QNAN ||| FALSE_FLAG := by
      intro h; rw [h] at hp; rw [hptr1] at hp; exact hpf hp.symm
    have h2 : QNAN ||| POINTER_FLAG ||| (POINTER_MASK &&& addr) ≠ QNAN ||| TRUE_FLAG := by
      intro h; rw [h] at hp; rw [hptr2] at hp; exact hpf hp.symm
    rw [deref, if_neg (by simp [hq]), if_neg h0, if_neg h1, if_neg h2, if_pos hp,
      haddr, hheap hp2]
    exact primEq_refl p
  cases p with
  | empty =>
    show primEq (deref heap (QNAN ||| EMPTY_FLAG)) BramaPrimative.empty = true
    rw [deref, if_neg (by decide), if_pos rfl]
    rfl
  | bool b =>
    cases b with
    | false =>
      show primEq (deref heap (QNAN ||| FALSE_FLAG)) (BramaPrimative.bool false) = true
      rw [deref, if_neg (by decide), if_neg (by decide), if_pos rfl]
      rfl
    | true =>
      show primEq (deref heap (QNAN ||| TRUE_FLAG)) (BramaPrimative.bool true) = true
      rw [deref, if_neg (by decide), if_neg (by decide), if_neg (by decide), if_pos rfl]
      rfl
  | number b =>
    have hb := hnum b rfl
    rw [convert, deref, if_pos hb]
    exact primEq_refl (.number b)
  | list l => exact hptrBranch rfl
  | atom a => exact hptrBranch rfl
  | text s => exact hptrBranch rfl

theorem claim1_roundTrip_witness :
    ((0x7ff8000000000000 : Nat) &&& QNAN ≠ QNAN) ∧
    primEq (deref heap0 (convert (.number 0x7ff8000000000000) 0))
      (.number 0x7ff8000000000000) = true ∧
    (heap0 (POINTER_MASK &&& 7) = BramaPrimative.empty) ∧
    primEq (deref heap0 (convert .empty 7)) .empty = true :=
  ⟨by decide,
   claim1_roundTrip (.number 0x7ff8000000000000) heap0 0
     (by intro b hb; cases hb; decide) (by intro h; simp [isHeapKind] at h),
   rfl,
   claim1_roundTrip .empty heap0 7 (by intro b hb; cases hb)
     (by intro h; simp [isHeapKind] at h)⟩

/-- Claim C1 (counterexample): the NaN whose bit pattern is exactly the
QNAN mask `0x7ffc000000000000` is a Number, but encoding and decoding it
yields Empty, which is not value-equal to the original Number. -/
theorem claim1_counterexample :
    deref heap0 (convert (.number QNAN) 0) = .empty ∧
    bitsIsNaN QNAN = true ∧
    primEq (deref heap0 (convert (.number QNAN) 0)) (.number QNAN) = false :=
  ⟨rfl, by decide, by decide⟩

/-- Claim C7: the `PartialEq` of `types.rs` is value equality within one
kind only — it is reflexive on the whole domain, any cross-kind comparison
is false, and any two NaN Numbers compare equal. -/
theorem claim7_equality :
    (∀ p, primEq p p = true) ∧
    (∀ p q, primKind p ≠ primKind q → primEq p q = false) ∧
    (∀ n m, bitsIsNaN n = true → bitsIsNaN m = true →
      primEq (.number n) (.number m) = true) := by
  refine ⟨primEq_refl, ?_, ?_⟩
  · intro p q hk
    cases p <;> cases q <;> first
      | rfl
      | (simp [primKind] at hk)
  · intro n m hn hm
    simp [primEq, hn, hm]

theorem claim7_equality_witness :
    primEq (.number 0x7ff8000000000000) (.number 0x7ffc000000000001) = true ∧
    primEq .empty (.bool true) = false :=
  ⟨claim7_equality.2.2 0x7ff8000000000000 0x7ffc000000000001 (by decide) (by decide),
   claim7_equality.2.1 .empty (.bool true) (by decide)⟩

/-- Claim C9: `VmObject::deref` is total — in particular a word with all
QNAN bits set, the pointer flag clear, and a value different from the three
singleton words decodes to Empty through the final catch-all arm. -/
theorem claim9_derefTotal (heap : Nat → BramaPrimative) (w : Nat)
    (hq : w &&& QNAN = QNAN) (hp : w &&& POINTER_FLAG ≠ POINTER_FLAG)
    (h0 : w ≠ QNAN ||| EMPTY_FLAG) (h1 : w ≠ QNAN ||| FALSE_FLAG)
    (h2 : w ≠ QNAN ||| TRUE_FLAG) :
    deref heap w = .empty := by
  rw [deref, if_neg (by simp [hq]), if_neg h0, if_neg h1, if_neg h2, if_neg hp]

theorem claim9_derefTotal_witness :
    deref heap0 (QNAN ||| 5) = .empty :=
  claim9_derefTotal heap0 (QNAN ||| 5) (by decide) (by decide) (by decide)
    (by decide) (by decide)

/-! ## Section 10: claims about the VM dispatch loop -/

/-- Claim C5 (counterexample): the truthiness match of the `Compare` opcode
maps List, Dict, function and class values to false (its catch-all arm),
not to true as claimed. -/
theorem claim5_counterexample :
    compareStatus (VmVal.list [VmVal.empty]) = false ∧
    compareStatus (VmVal.dict [("k", VmVal.empty)]) = false ∧
    compareStatus (VmVal.funcNative 0) = false ∧
    compareStatus (VmVal.cls 0) = false :=
  ⟨rfl, rfl, rfl, rfl⟩

/-- Claim C5 (amended): the truthiness function used by the `Compare`
opcode maps Empty to false, Bool to its own value, Number `n` to
`n > 0.0`, Text to non-emptiness, Atom to true, and every List, Dict,
function and class value to false. -/
theorem claim5_compareTruthiness :
    compareStatus .empty = false ∧
    (∀ b, compareStatus (.bool b) = b) ∧
    (∀ n, compareStatus (.number n) = fgt n fzero) ∧
    (∀ s, compareStatus (.text s) = decide (0 < s.utf8ByteSize)) ∧
    (∀ a, compareStatus (.atom a) = true) ∧
    (∀ l, compareStatus (.list l) = false) ∧
    (∀ d, compareStatus (.dict d) = false) ∧
    (∀ f, compareStatus (.funcNative f) = false) ∧
    (∀ c, compareStatus (.cls c) = false) :=
  ⟨rfl, fun _ => rfl, fun _ => rfl, fun _ => rfl, fun _ => rfl,
   fun _ => rfl, fun _ => rfl, fun _ => rfl, fun _ => rfl⟩

/-- Claim C6 (amended): for `Addition`, `Subraction` and `Multiply`, when
either operand is not a Number the result is Empty, except that
`Text + Text` concatenates and `Text * Number n` repeats the text
`min(floor(n), 2^64 - 1)` times (the saturating `as usize` cast), with
negative or NaN `n` giving the empty text; `a = "ha" * 3` stores
`Text("hahaha")`. -/
theorem claim6_arithmetic :
    (∀ l r : VmVal, l.isNumber = false ∨ r.isNumber = false →
      (additionResult l r =
        (match l, r with
         | .text a, .text b => .text (a ++ b)
         | _, _ => .empty)) ∧
      subractionResult l r = .empty ∧
      (multiplyResult l r =
        (match l, r with
         | .text a, .number n => .text (repeatText a (floatToUsize n))
         | _, _ => .empty))) ∧
    (∀ m : ℚ, floatToUsize (.fin true m) = 0) ∧
    floatToUsize .nan = 0 ∧
    (∀ s, repeatText s 0 = "") ∧
    (∀ q : ℚ, 0 ≤ q → ⌊q⌋.toNat < 2 ^ 64 →
      floatToUsize (.fin false q) = ⌊q⌋.toNat) ∧
    runMemorySlot 5 s2State 2 = some (.text "hahaha") := by
  refine ⟨?_, fun _ => rfl, rfl, fun _ => rfl, ?_, rfl⟩
  · intro l r h
    refine ⟨?_, ?_, ?_⟩ <;>
      cases l <;> cases r <;>
        first
          | rfl
          | (simp [VmVal.isNumber] at h)
  · intro q h0 hlt
    show min (⌊q⌋.toNat) (2 ^ 64 - 1) = ⌊q⌋.toNat
    omega

theorem claim6_witness :
    ((VmVal.text "ha").isNumber = false ∨
      (VmVal.number (.fin false 3)).isNumber = false) ∧
    multiplyResult (.text "ha") (.number (.fin false 3)) = .text "hahaha" ∧
    additionResult (.text "a") (.text "b") = .text "ab" ∧
    subractionResult (.text "a") (.bool true) = .empty ∧
    (0 ≤ (3 : ℚ) ∧ (⌊(3 : ℚ)⌋).toNat < 2 ^ 64 ∧
      floatToUsize (.fin false 3) = (⌊(3 : ℚ)⌋).toNat) := by
  have h1 := claim6_arithmetic.1 (.text "ha") (.number (.fin false 3)) (Or.inl rfl)
  have h2 := claim6_arithmetic.1 (.text "a") (.text "b") (Or.inl rfl)
  have h3 := claim6_arithmetic.1 (.text "a") (.bool true) (Or.inl rfl)
  have h4 := claim6_arithmetic.2.2.2.2.1 3 (by norm_num) (by norm_num)
  refine ⟨Or.inl rfl, ?_, ?_, h3.2.1, by norm_num, by norm_num, h4⟩
  · rw [h1.2.2]
    show VmVal.text (repeatText "ha" (floatToUsize (F64V.fin false 3))) = VmVal.text "hahaha"
    exact congrArg VmVal.text (by decide)
  · rw [h2.1]
    show VmVal.text ("a" ++ "b") = VmVal.text "ab"
    exact congrArg VmVal.text (by decide)

/-- Claim C6 (counterexample): the repeat count is not `floor(n)` for every
Number `n` — the `as usize` cast saturates, so at `n = 2^64` the text is
repeated `2^64 - 1` times, not `floor(n) = 2^64` times. -/
theorem claim6_counterexample :
    floatToUsize (.fin false ((2 : ℚ) ^ 64)) = 2 ^ 64 - 1 ∧
    (⌊((2 : ℚ) ^ 64)⌋).toNat = 2 ^ 64 ∧
    floatToUsize (.fin false ((2 : ℚ) ^ 64)) ≠ (⌊((2 : ℚ) ^ 64)⌋).toNat := by
  refine ⟨by decide, by decide, ?_⟩
  intro h
  rw [show (⌊((2 : ℚ) ^ 64)⌋).toNat = 2 ^ 64 from by decide] at h
  rw [show floatToUsize (.fin false ((2 : ℚ) ^ 64)) = 2 ^ 64 - 1 from by decide] at h
  omega

/-- Claim C2 (amended): executing `Division` on a Number left operand and
the Number `+0.0` right operand pushes Empty exactly when the IEEE quotient
is NaN, i.e. when the left operand is NaN or a zero; a nonzero finite or
infinite left operand pushes the correspondingly signed infinity, and no
error is ever raised by this arm. -/
theorem claim2_divisionByZero (l : F64V) :
    divisionResult (.number l) (.number fzero) =
      (match l with
       | .nan => VmVal.empty
       | .inf s => VmVal.number (.inf s)
       | .fin s m => if m = 0 then VmVal.empty else VmVal.number (.inf s)) := by
  cases l with
  | nan => rfl
  | inf s => cases s <;> rfl
  | fin s m =>
    cases s with
    | false =>
      by_cases hm : m = 0
      · subst hm; rfl
      · simp [divisionResult, fdiv, fzero, hm, F64V.isNaN]
    | true =>
      by_cases hm : m = 0
      · subst hm; rfl
      · simp [divisionResult, fdiv, fzero, hm, F64V.isNaN]

/-- Claim C2 (counterexample): `1 / 0` is `+∞`, not Empty — both at the
`Division` arm itself and for the compiled program of scenario S3, whose
variable slot receives `Number(+∞)`. -/
theorem claim2_counterexample :
    divisionResult (.number fone) (.number fzero) = .number (.inf false) ∧
    runMemorySlot 5 divState 2 = some (.number (.inf false)) ∧
    VmVal.number (.inf false) ≠ VmVal.empty :=
  ⟨rfl, rfl, by simp⟩

/-- Claim C8: `Compare` and `Jump` decode their 16-bit offset little-endian
from the two bytes after the opcode byte; a taken branch sets the program
counter to the position of the first operand byte plus the offset, and a
`Compare` on a truthy popped value falls through to the instruction after
its two operand bytes. -/
theorem claim8_jumpOffsets (st : VmState) :
    (decodeOp (byteAt st st.index) = VmOpCode.Jump →
      vmStep st = .ok { st with
        index := st.index + 1 +
          (byteAt st (st.index + 1) + 256 * byteAt st (st.index + 2)) }) ∧
    (decodeOp (byteAt st st.index) = VmOpCode.Compare →
      vmStep st = .ok { st with
        memIndex := st.memIndex - 1,
        index :=
          if compareStatus (st.stack (st.memIndex - 1)) then st.index + 3
          else st.index + 1 +
            (byteAt st (st.index + 1) + 256 * byteAt st (st.index + 2)) }) := by
  have harith : st.index + (byteAt st (st.index + 2) * 256 + byteAt st (st.index + 1)) + 1
      = st.index + 1 + (byteAt st (st.index + 1) + 256 * byteAt st (st.index + 2)) := by
    ring
  constructor
  · intro h
    simp only [vmStep, h, execOp]
    rw [harith]
  · intro h
    simp only [vmStep, h, execOp]
    by_cases hc : compareStatus (st.stack (st.memIndex - 1)) = true
    · simp [hc]
    · simp only [Bool.not_eq_true] at hc
      simp only [hc, if_neg Bool.false_ne_true, Bool.false_eq_true, if_false]
      rw [harith]

theorem claim8_witness :
    decodeOp (byteAt jmpState jmpState.index) = VmOpCode.Jump ∧
    vmStep jmpState = .ok { jmpState with
      index := jmpState.index + 1 +
        (byteAt jmpState (jmpState.index + 1) + 256 * byteAt jmpState (jmpState.index + 2)) } ∧
    decodeOp (byteAt cmpState cmpState.index) = VmOpCode.Compare ∧
    vmStep cmpState = .ok { cmpState with
      memIndex := cmpState.memIndex - 1,
      index :=
        if compareStatus (cmpState.stack (cmpState.memIndex - 1)) then cmpState.index + 3
        else cmpState.index + 1 +
          (byteAt cmpState (cmpState.index + 1) + 256 * byteAt cmpState (cmpState.index + 2)) } :=
  ⟨rfl, (claim8_jumpOffsets jmpState).1 rfl, rfl, (claim8_jumpOffsets cmpState).2 rfl⟩

/-- Claim C10: a `NativeCall` whose function slot does not hold a
`FuncNativeCall` makes no call, leaves stack, stack pointer and memory
unchanged, advances the program counter past only the opcode byte, and the
loop then continues decoding at the first operand byte. -/
theorem claim10_nativeCallSkip (st : VmState)
    (hlen : st.index < st.opcodes.length)
    (hop : decodeOp (byteAt st st.index) = VmOpCode.NativeCall)
    (hfn : (st.memory (byteAt st (st.index + 1))).isFuncNative = false) :
    vmStep st = .ok { st with index := st.index + 1 } ∧
    ∀ n, vmRun (n + 1) st = vmRun n { st with index := st.index + 1 } := by
  have hstep : vmStep st = .ok { st with index := st.index + 1 } := by
    simp only [vmStep, hop, execOp]
    cases hm : st.memory (byteAt st (st.index + 1)) <;>
      first
        | rfl
        | (rw [hm] at hfn; simp [VmVal.isFuncNative] at hfn)
  refine ⟨hstep, ?_⟩
  intro n
  simp [vmRun, hlen, hstep]

theorem claim10_witness :
    vmStep ncState = .ok { ncState with index := ncState.index + 1 } ∧
    vmRun 3 ncState = vmRun 2 { ncState with index := ncState.index + 1 } :=
  ⟨(claim10_nativeCallSkip ncState (by decide) rfl rfl).1,
   (claim10_nativeCallSkip ncState (by decide) rfl rfl).2 2⟩

/-- Any error produced by a single dispatch arm comes either from a
`NativeCall` whose native function returned that error, or from a `GetItem`
with one of the two indexer-kind messages; every other arm returns `.ok`. -/
theorem execOp_error_shape (op : VmOpCode) (st : VmState) (e : String)
    (h : execOp op st = .error e) :
    (op = VmOpCode.NativeCall ∧
      ∃ f, st.memory (byteAt st (st.index + 1)) = .funcNative f ∧
        st.natives f st.stack st.memIndex (byteAt st (st.index + 2)) = .error e) ∨
    (op = VmOpCode.GetItem ∧
      (e = "Indexer must be number" ∨ e = "Indexer must be string")) := by
  cases op
  case NativeCall =>
    left
    refine ⟨rfl, ?_⟩
    simp only [execOp] at h
    cases hm : st.memory (byteAt st (st.index + 1)) <;> rw [hm] at h <;>
      simp only [] at h
    case funcNative f =>
      cases hr : st.natives f st.stack st.memIndex (byteAt st (st.index + 2)) <;>
        rw [hr] at h <;> simp at h
      case error e2 =>
        exact ⟨f, rfl, by rw [hr, h]⟩
    all_goals simp at h
  case GetItem =>
    right
    refine ⟨rfl, ?_⟩
    simp only [execOp] at h
    cases hobj : st.stack (st.memIndex - 2) <;> rw [hobj] at h
    case list items =>
      cases hidx : st.stack (st.memIndex - 1) <;> rw [hidx] at h <;> simp at h
      all_goals exact Or.inl h.symm
    case dict entries =>
      cases hidx : st.stack (st.memIndex - 1) <;> rw [hidx] at h <;> simp at h
      all_goals exact Or.inr h.symm
    all_goals simp at h
  case Compare =>
    exfalso
    simp only [execOp] at h
    split at h <;> simp at h
  all_goals (exfalso; simp only [execOp] at h; simp at h)

/-- Claim C3 (amended): `run_vm` returns an error exactly from two sources —
a native call that returned that error, or a `GetItem` indexing a List with
a non-Number indexer or a Dict with a non-Text indexer; every other
operand-kind mismatch pushes Empty and execution continues. -/
theorem claim3_errorSources (n : Nat) :
    ∀ (st : VmState) (e : String), vmRun n st = .failed e →
      ∃ st2, Reaches st st2 ∧ vmStep st2 = .error e ∧
        ((decodeOp (byteAt st2 st2.index) = VmOpCode.NativeCall ∧
          ∃ f, st2.memory (byteAt st2 (st2.index + 1)) = .funcNative f ∧
            st2.natives f st2.stack st2.memIndex (byteAt st2 (st2.index + 2)) = .error e) ∨
         (decodeOp (byteAt st2 st2.index) = VmOpCode.GetItem ∧
          (e = "Indexer must be number" ∨ e = "Indexer must be string"))) := by
  induction n with
  | zero => intro st e h; simp [vmRun] at h
  | succ n ih =>
    intro st e h
    rw [vmRun] at h
    by_cases hlen : st.index < st.opcodes.length
    · rw [if_pos hlen] at h
      split at h
      · rename_i st2 hstep
        obtain ⟨st3, hre, herr, hshape⟩ := ih st2 e h
        exact ⟨st3, Reaches.head hstep hre, herr, hshape⟩
      · rename_i e2 hstep
        injection h with he
        rw [he] at hstep
        refine ⟨st, Reaches.refl st, hstep, ?_⟩
        exact execOp_error_shape (decodeOp (byteAt st st.index)) st e hstep
    · rw [if_neg hlen] at h
      simp at h

theorem claim3_witness :
    ∃ st2, Reaches stC3err st2 ∧ vmStep st2 = .error "Indexer must be number" ∧
      ((decodeOp (byteAt st2 st2.index) = VmOpCode.NativeCall ∧
        ∃ f, st2.memory (byteAt st2 (st2.index + 1)) = .funcNative f ∧
          st2.natives f st2.stack st2.memIndex (byteAt st2 (st2.index + 2)) =
            .error "Indexer must be number") ∨
       (decodeOp (byteAt st2 st2.index) = VmOpCode.GetItem ∧
        ("Indexer must be number" = "Indexer must be number" ∨
         "Indexer must be number" = "Indexer must be string"))) :=
  claim3_errorSources 1 stC3err "Indexer must be number" rfl

/-- Claim C3 (counterexample): a run can fail although no native call ever
errs — the single-instruction program of `stC3err` is a `GetItem` (its only
opcode byte decodes to `GetItem`, not `NativeCall`) and every entry of its
native table returns `.ok`, yet `run_vm` returns the indexer error. -/
theorem claim3_counterexample :
    vmRun 1 stC3err = .failed "Indexer must be number" ∧
    stC3err.opcodes = [20] ∧
    decodeOp 20 = VmOpCode.GetItem ∧
    decodeOp 20 ≠ VmOpCode.NativeCall ∧
    stC3err.natives 0 stC3err.stack stC3err.memIndex 0 = .ok VmVal.empty :=
  ⟨rfl, rfl, rfl, by decide, rfl⟩

/-! ## Section 11: claim about module loading -/

/-- On the cyclic import graph, the loader makes no progress at any fuel
bound with an empty-enough registry: `m1` and `m2` keep re-entering each
other because a module is registered only after it fully loads. -/
theorem moduleRun_cyc_diverges (fuel : Nat) :
    ∀ ctx : MCtx, ["m1"] ∉ ctx.registry → ["m2"] ∉ ctx.registry →
      moduleRun cycSrcs fuel (.loadM ["m1"]) ctx = none ∧
      moduleRun cycSrcs fuel (.loadM ["m2"]) ctx = none ∧
      moduleRun cycSrcs fuel (.findL (.load ["m1"])) ctx = none ∧
      moduleRun cycSrcs fuel (.findL (.load ["m2"])) ctx = none ∧
      moduleRun cycSrcs fuel (.findL (.block [.load ["m1"]])) ctx = none ∧
      moduleRun cycSrcs fuel (.findL (.block [.load ["m2"]])) ctx = none ∧
      moduleRun cycSrcs fuel (.findList [.load ["m1"]]) ctx = none ∧
      moduleRun cycSrcs fuel (.findList [.load ["m2"]]) ctx = none := by
  induction fuel with
  | zero => intro ctx h1 h2; simp [moduleRun]
  | succ fuel ih =>
    intro ctx h1 h2
    have ctx2 : ∀ k : Nat, ["m1"] ∉ ({ ctx with storages := k } : MCtx).registry ∧
        ["m2"] ∉ ({ ctx with storages := k } : MCtx).registry := fun _ => ⟨h1, h2⟩
    refine ⟨?_, ?_, ?_, ?_, ?_, ?_, ?_, ?_⟩
    · have hi := ih { ctx with storages := ctx.storages + 1 } h1 h2
      simp [moduleRun, cycSrcs, hi.2.2.2.2.2.1]
    · have hi := ih { ctx with storages := ctx.storages + 1 } h1 h2
      simp [moduleRun, cycSrcs, hi.2.2.2.2.1]
    · have hi := ih ctx h1 h2
      simp [moduleRun, h1, hi.1]
    · have hi := ih ctx h1 h2
      simp [moduleRun, h2, hi.2.1]
    · have hi := ih ctx h1 h2
      simp [moduleRun, hi.2.2.2.2.2.2.1]
    · have hi := ih ctx h1 h2
      simp [moduleRun, hi.2.2.2.2.2.2.2]
    · have hi := ih ctx h1 h2
      simp [moduleRun, hi.2.2.1]
    · have hi := ih ctx h1 h2
      simp [moduleRun, hi.2.2.2.1]

/-- Claim C4: compiling the cyclic import `m1 -> m2 -> m1` does not
terminate with a cyclic-import error — there is no in-progress marker, a
module is added to the registry only after `load_module` returns, so
`find_load_type` re-enters the cycle at every fuel bound and never produces
any result, success or error. -/
theorem claim4_cyclicImport (fuel : Nat) :
    moduleRun cycSrcs fuel (.loadM ["m1"]) mctx0 = none :=
  (moduleRun_cyc_diverges fuel mctx0 (by simp [mctx0]) (by simp [mctx0])).1
